import Mathlib

/-!
Verification of the SpeedTracer middleware (src/sugar/middleware/speedtracer.py).

The Python source is shallowly embedded below.  Python 2 `str` values are
modelled as `List Char` (a plain character sequence), `time.time()` readings
and all other timestamps as rationals, and Python exceptions as `Except`
values.  Two runtime facilities are modelled as inputs rather than effects:
the value returned by `id(new_record)` travels with each trace event
(`allocId`), and every clock reading made while handling an event travels
with that event (`time`).

Note on `print >>sys.stderr, ...`: the module begins with
`from __future__ import print_function`, so the three Python 2 print
statements in the file (lines 71, 75 and 129 of the source) parse as the
expression `(print >> sys.stderr, "...")`, whose evaluation raises
`TypeError: unsupported operand type(s) for >>`.  The embedding models those
statements as raising `PyError.typeErrorPrintRshift`.
-/

namespace SpeedTracer

/-- Python 2 `str`: a plain sequence of characters. -/
abbrev Str := List Char

/-- Python exceptions that the embedded code can raise. -/
inductive PyError where
  /-- `TypeError: unsupported operand type(s) for >>` raised by a
  `print >>sys.stderr, ...` statement under `from __future__ import
  print_function`. -/
  | typeErrorPrintRshift
  /-- `KeyError` from `sys.modules[app]` when `app` is not a loaded module. -/
  | keyErrorModules
  /-- `KeyError` from `current_frame['range']["start_time"]` when the range
  dict does not hold a `start_time` key. -/
  | keyErrorStartTime
  /-- `AttributeError` from `sys.modules[app].__path__` when the module has
  no `__path__` attribute (a plain module rather than a package). -/
  | attributeErrorPath
  /-- `TypeError` from `app_dirs.add(*path)` when `__path__` does not hold
  exactly one entry (`set.add` takes exactly one argument). -/
  | typeErrorAddArity
deriving DecidableEq

/-- The `sourceCodeLocation` dict built in `trace_callback`. -/
structure SourceCodeLocation where
  className : Str
  methodName : Str
  lineNumber : Nat

/-- The `operation` dict of a span.  The request-level HTTP operation has no
`sourceCodeLocation` key, hence the `Option`. -/
structure Operation where
  sourceCodeLocation : Option SourceCodeLocation
  type : Str
  label : Str

/-- The dict returned by `SpeedTracerMiddleware._build_range`. -/
structure BuiltRange where
  start : ℚ
  «end» : ℚ
  duration : ℚ

/-- The `range` dict of a span record: `{"start_time": t}` while the span is
open, and the `_build_range` result once it is closed. -/
inductive RangeInfo where
  | startOnly (start_time : ℚ)
  | built (r : BuiltRange)

/-- A span record (`new_record` in `trace_callback`): id, operation,
ordered child list and time range. -/
inductive Span where
  | mk (id : Nat) (operation : Operation) (children : List Span) (range : RangeInfo)

def Span.id : Span → Nat
  | .mk i _ _ _ => i

def Span.operation : Span → Operation
  | .mk _ o _ _ => o

def Span.children : Span → List Span
  | .mk _ _ cs _ => cs

def Span.range : Span → RangeInfo
  | .mk _ _ _ r => r

/-- `current_frame['range'] = ...`: replace the range of a record. -/
def Span.withRange : Span → RangeInfo → Span
  | .mk i o cs _, r => .mk i o cs r

/-- `record['children'] = ...`: replace the child list of a record. -/
def Span.withChildren : Span → List Span → Span
  | .mk i o _ r, cs => .mk i o cs r

/-- The data of a Python frame that `trace_callback` inspects:
`frame.f_code.co_filename`, `frame.f_code.co_name`, `frame.f_lineno`,
the module name found by `inspect.getmodule` (`""` when no module is
found) and `frame.f_locals['self'].__class__.__name__` (`""` when the
lookup raises `KeyError` or `AttributeError`). -/
structure FrameInfo where
  co_filename : Str
  co_name : Str
  f_lineno : Nat
  module_name : Str
  class_name : Str

/-- The event argument of `sys.settrace`'s callback; everything that is not
`'call'` or `'return'` (such as `'line'` or `'exception'`) is bucketed as
`other`. -/
inductive PyEventKind where
  | call
  | ret
  | other
deriving DecidableEq

/-- One invocation of `trace_callback`: the event kind, the frame data, the
value `time.time()` returns while this event is handled, and the value
`id(new_record)` returns if a record is allocated for this event. -/
structure TraceEvent where
  kind : PyEventKind
  frame : FrameInfo
  time : ℚ
  allocId : Nat

/-- `'.'.join(filter(None, parts))`: dot-join the non-empty parts. -/
def joinNonEmptyDot (parts : List Str) : Str :=
  List.intercalate ['.'] (parts.filter (fun p => !p.isEmpty))

/-- The `operation` dict built for a `'call'` event. -/
def mkOperation (fr : FrameInfo) : Operation :=
  { sourceCodeLocation := some ⟨fr.co_filename, fr.co_name, fr.f_lineno⟩
  , type := "METHOD".toList
  , label := joinNonEmptyDot [fr.module_name, fr.class_name, fr.co_name] }

/-- `SpeedTracerMiddleware._build_range`. -/
def build_range (start_time end_time : ℚ) : BuiltRange :=
  { start := start_time, «end» := end_time, duration := end_time - start_time }

/-- The recorder state kept on the middleware instance: `self.traces`
(completed root spans) and `self.call_stack` (open spans; the head of this
list is the top of the stack, i.e. the last element of the Python list). -/
structure RecState where
  traces : List Span
  call_stack : List Span

/-- `self.traces = []` and `self.call_stack = []` in `__init__`. -/
def initRecState : RecState := ⟨[], []⟩

/-- `current_frame['range']["start_time"]`: a dict lookup that raises
`KeyError` unless the range is still in its open `{"start_time": t}` form. -/
def rangeStartTime : RangeInfo → Except PyError ℚ
  | .startOnly t => .ok t
  | .built _ => .error .keyErrorStartTime

/-- `SpeedTracerMiddleware.trace_callback` for one event.  The source first
dispatches on the event kind (`if not event in ('call', 'return'): return`),
then checks `self.file_filter.match(frame.f_code.co_filename)`; the filter
check is replicated in each kind branch here, which preserves the source's
behaviour.  On the empty-stack `'return'` path the source executes
`print >>sys.stderr, "Return without stack?"`, which raises `TypeError`
under the module's `print_function` future import. -/
def trace_callback (file_filter : Str → Bool) (s : RecState) (e : TraceEvent) :
    Except PyError RecState :=
  match e.kind with
  | .other => .ok s
  | .call =>
    if file_filter e.frame.co_filename then
      .ok { traces := s.traces
          , call_stack :=
              Span.mk e.allocId (mkOperation e.frame) [] (RangeInfo.startOnly e.time)
                :: s.call_stack }
    else .ok s
  | .ret =>
    if file_filter e.frame.co_filename then
      match s.call_stack with
      | [] => .error PyError.typeErrorPrintRshift
      | current_frame :: rest =>
        match rangeStartTime current_frame.range with
        | .error err => .error err
        | .ok start_time =>
          let closed := current_frame.withRange
            (RangeInfo.built (build_range start_time e.time))
          match rest with
          | [] => .ok { traces := s.traces ++ [closed], call_stack := [] }
          | parent :: rest2 =>
            .ok { traces := s.traces
                , call_stack := parent.withChildren (parent.children ++ [closed]) :: rest2 }
    else .ok s

/-- Feed a sequence of events to `trace_callback`, stopping at the first
uncaught exception. -/
def runTraceEvents (file_filter : Str → Bool) : RecState → List TraceEvent → Except PyError RecState
  | s, [] => .ok s
  | s, e :: rest =>
    match trace_callback file_filter s e with
    | .ok s2 => runTraceEvents file_filter s2 rest
    | .error err => .error err

/-- The root-span list produced by a run from the freshly initialised
recorder (`[]` if the run raises). -/
def forestOf (file_filter : Str → Bool) (evs : List TraceEvent) : List Span :=
  match runTraceEvents file_filter initRecState evs with
  | .ok s => s.traces
  | .error _ => []

mutual

/-- Depth-first (preorder) walk of a span: its operation followed by the
walks of its children, in order. -/
def spanWalk : Span → List Operation
  | .mk _ op cs _ => op :: forestWalk cs

/-- Depth-first (preorder) walk of a span list. -/
def forestWalk : List Span → List Operation
  | [] => []
  | sp :: rest => spanWalk sp ++ forestWalk rest

end

/-- The operations of the `'call'` events of a sequence, in order. -/
def callOps (evs : List TraceEvent) : List Operation :=
  evs.filterMap (fun e =>
    match e.kind with
    | .call => some (mkOperation e.frame)
    | _ => none)

/-- Well-formed nested enter/exit sequences: empty, or an enter event, a
well-formed inner sequence (the calls made during that activation), the
matching exit event, and a well-formed remainder. -/
inductive Nested : List TraceEvent → Prop where
  | nil : Nested []
  | node {c r : TraceEvent} {inner rest : List TraceEvent} :
      c.kind = .call → r.kind = .ret →
      Nested inner → Nested rest → Nested (c :: (inner ++ r :: rest))

/-- Whether an event kind is one of the two handled by `trace_callback`
(`event in ('call', 'return')`). -/
def handledKind : PyEventKind → Bool
  | .other => false
  | _ => true

/-- An event on which `trace_callback` does something: a handled kind on a
frame matching the file filter. -/
def relevantEvent (file_filter : Str → Bool) (e : TraceEvent) : Bool :=
  handledKind e.kind && file_filter e.frame.co_filename

/-- The property claimed of every closed range: end no earlier than start,
and duration equal to their difference. -/
def builtRangeOkB (r : BuiltRange) : Bool :=
  decide (r.start ≤ r.«end») && decide (r.duration = r.«end» - r.start)

/-- A range is acceptable when it is still open, or closed and well-formed. -/
def rangeInfoOkB : RangeInfo → Bool
  | .startOnly _ => true
  | .built r => builtRangeOkB r

mutual

/-- Every closed range in the span tree is well-formed. -/
def spanOkB : Span → Bool
  | .mk _ _ cs r => rangeInfoOkB r && spansOkB cs

/-- Every closed range in the forest is well-formed. -/
def spansOkB : List Span → Bool
  | [] => true
  | sp :: rest => spanOkB sp && spansOkB rest

end

/-- Invariant of the recorder run: all recorded traces are well-formed, and
every open span on the stack carries a start time no later than `b` (the
latest clock reading so far) and well-formed recorded children. -/
def Inv (b : ℚ) (s : RecState) : Prop :=
  spansOkB s.traces = true ∧
  ∀ sp ∈ s.call_stack,
    (∃ t, sp.range = RangeInfo.startOnly t ∧ t ≤ b) ∧ spansOkB sp.children = true

/-- Python `template % arg` for a single `%s` placeholder: substitute the
first occurrence. -/
def formatS : Str → Str → Str
  | [], _ => []
  | '%' :: 's' :: t, arg => arg ++ t
  | ch :: t, arg => ch :: formatS t arg

/-- Dict lookup in an association list. -/
def lookupAssoc {α β : Type} [DecidableEq α] : List (α × β) → α → Option β
  | [], _ => none
  | (k, v) :: t, key => if k = key then some v else lookupAssoc t key

/-- Dict update (`d[key] = val`) in an association list. -/
def setAssoc {α β : Type} [DecidableEq α] : List (α × β) → α → β → List (α × β)
  | [], key, val => [(key, val)]
  | (k, v) :: t, key, val => if k = key then (key, val) :: t else (k, v) :: setAssoc t key val

/-- The trace document assembled in `process_response` (the `data` dict,
lines 167-183 of the source): trace id, application label, creation date,
overall range, and the synthetic HTTP root span whose children are
`self.traces`. -/
structure TraceDocument where
  id : Str
  application : Str
  date : ℚ
  range : BuiltRange
  frameStack : Span

/-- The Django cache, holding stored trace documents by key.  Expiry (the
TTL passed to `cache.set`) is the external store's concern: an expired or
never-written key simply has no entry. -/
abbrev Cache := List (Str × TraceDocument)

/-- `cache.get(key, {})`: `none` models the `{}` default used when the key
is absent or expired. -/
def cache_get (c : Cache) (key : Str) : Option TraceDocument :=
  lookupAssoc c key

/-- `cache.set(key, value, ttl)`; the TTL is handed to the external store. -/
def cache_set (c : Cache) (key : Str) (value : TraceDocument) (_ttl : Nat) : Cache :=
  setAssoc c key value

/-- What `json.dumps` is applied to in a response body: either a plain
string produced by the application, or the serialization of `{}` (for
`none`) respectively of a stored trace document. -/
inductive ResponseBody where
  | content (s : Str)
  | jsonDump (d : Option TraceDocument)

/-- A Django `HttpResponse`: body, status (200 unless stated), mimetype and
headers (`response['X-TraceUrl'] = ...` updates the header dict). -/
structure HttpResponse where
  body : ResponseBody
  status : Nat
  mimetype : Str
  headers : List (Str × Str)

/-- `response[key] = value`. -/
def setHeader (resp : HttpResponse) (key value : Str) : HttpResponse :=
  { resp with headers := setAssoc resp.headers key value }

/-- A Django request as used by the middleware: method, path, and the
`_speedtracer_start_time` attribute (absent until `process_request` sets
it; reading it when absent raises `AttributeError`, modelled by `none`). -/
structure Request where
  method : Str
  path : Str
  speedtracer_start_time : Option ℚ

/-- The Django settings consulted by the middleware, with the source's
defaults.  `SPEEDTRACER_FILE_FILTER_RE` is the compiled matcher of the
configured pattern (`re.compile(...).match`); `none` selects the
auto-derivation path of `__init__`. -/
structure Settings where
  INSTALLED_APPS : List Str
  SPEEDTRACER_CACHE_PREFIX : Str
  SPEEDTRACER_DEBUG : Bool
  SPEEDTRACER_TRACE_DJANGO : Bool
  SPEEDTRACER_API_URL : Str
  SPEEDTRACER_FILE_FILTER_RE : Option (Str → Bool)
  SPEEDTRACER_TRACE_TTL : Nat

/-- A loaded module as seen through `sys.modules`: its `__path__`
attribute, when it has one. -/
structure ModuleInfo where
  path : Option (List Str)

/-- `sys.modules`: loaded module names with their data. -/
abbrev Modules := List (Str × ModuleInfo)

/-- `set.add` on the app-dirs set (dedupe, keep insertion order). -/
def setAdd (dirs : List Str) (d : Str) : List Str :=
  if d ∈ dirs then dirs else dirs ++ [d]

/-- `app_dirs.add(*path)`: star-unpacking the `__path__` list; `set.add`
takes exactly one argument, so any other arity raises `TypeError`. -/
def setAddUnpack (dirs : List Str) (path : List Str) : Except PyError (List Str) :=
  match path with
  | [p] => .ok (setAdd dirs p)
  | _ => .error PyError.typeErrorAddArity

/-- The inner `for k, v in sys.modules.items()` loop of `__init__`: for
every loaded module name starting with `app`, add
`sys.modules[app].__path__` to the set (note the lookup is by `app`, not by
`k`, and raises `KeyError` when `app` itself is not loaded). -/
def appDirsInner (modules : Modules) (app : Str) : List Str → Modules → Except PyError (List Str)
  | dirs, [] => .ok dirs
  | dirs, (k, _) :: restMods =>
    if app.isPrefixOf k then
      match lookupAssoc modules app with
      | none => .error PyError.keyErrorModules
      | some m =>
        match m.path with
        | none => .error PyError.attributeErrorPath
        | some p =>
          match setAddUnpack dirs p with
          | .ok dirs2 => appDirsInner modules app dirs2 restMods
          | .error err => .error err
    else appDirsInner modules app dirs restMods

/-- One iteration of the `for app in settings.INSTALLED_APPS` loop: skip
Django apps unless tracing them, run the inner loop, and on `KeyError` run
the handler `print >>sys.stderr, "Can't get path for app: %s" % app` —
which, under the `print_function` future import, raises `TypeError` out of
`__init__`. -/
def appDirsForApp (traceDjango : Bool) (modules : Modules) (dirs : List Str) (app : Str) :
    Except PyError (List Str) :=
  if ("django.".toList).isPrefixOf app && !traceDjango then .ok dirs
  else
    match appDirsInner modules app dirs modules with
    | .error PyError.keyErrorModules => .error PyError.typeErrorPrintRshift
    | r => r

/-- The whole `for app in settings.INSTALLED_APPS` loop. -/
def collectAppDirs (traceDjango : Bool) (modules : Modules) : List Str → List Str → Except PyError (List Str)
  | dirs, [] => .ok dirs
  | dirs, app :: restApps =>
    match appDirsForApp traceDjango modules dirs app with
    | .ok dirs2 => collectAppDirs traceDjango modules dirs2 restApps
    | .error err => .error err

/-- File-filter construction in `SpeedTracerMiddleware.__init__` (lines
56-79): an explicitly configured pattern is compiled and used as-is; with
no configured pattern the app-dirs loop runs and then
`print  >> sys.stderr, "Autogenerated settings.SPEEDTRACER_FILE_FILTER_RE: %s" % app_dir_re`
executes — which, under the `print_function` future import, raises
`TypeError`, so the auto-derivation path never completes. -/
def initFileFilter (S : Settings) (modules : Modules) : Except PyError (Str → Bool) :=
  match S.SPEEDTRACER_FILE_FILTER_RE with
  | some compiled => .ok compiled
  | none =>
    match collectAppDirs S.SPEEDTRACER_TRACE_DJANGO modules [] S.INSTALLED_APPS with
    | .ok _app_dirs => .error PyError.typeErrorPrintRshift
    | .error err => .error err

/-- The `data` dict assembled in `process_response`: `start_time` is the
recorded request start, `end_time` and the creation date are the clock
readings made in `process_response` (adjacent `time.time()` calls, passed
in as `end_time` and `now`), `trace_id` is the generated `uuid.uuid4()`
rendered as a string. -/
def trace_document (self_ : RecState) (req : Request) (start_time end_time now : ℚ)
    (trace_id : Str) : TraceDocument :=
  { id := trace_id
  , application := "Django SpeedTracer".toList
  , date := now
  , range := build_range start_time end_time
  , frameStack := Span.mk 0
      { sourceCodeLocation := none
      , type := "HTTP".toList
      , label := req.method ++ [' '] ++ req.path }
      self_.traces
      (RangeInfo.built (build_range start_time end_time)) }

/-- Result of `process_request`: the middleware state (`self.traces`,
`self.call_stack`), the request (possibly with its start-time attribute
set), an early response (for trace-retrieval paths) and whether
`sys.settrace` now has the callback installed. -/
structure ReqOutcome where
  recState : RecState
  request : Request
  response : Option HttpResponse
  sysTrace : Bool

/-- `SpeedTracerMiddleware.process_request` (lines 143-153): for a normal
path, record the start time and install the trace callback; for a path
under `SPEEDTRACER_API_URL`, look the trailing segment up in the cache
(with the `{}` default) and answer it as JSON directly. -/
def process_request (S : Settings) (self_ : RecState) (sysTrace : Bool) (cache : Cache)
    (req : Request) (now : ℚ) : ReqOutcome :=
  if !(S.SPEEDTRACER_API_URL.isPrefixOf req.path) then
    { recState := self_
    , request := { req with speedtracer_start_time := some now }
    , response := none
    , sysTrace := true }
  else
    let trace_id := formatS S.SPEEDTRACER_CACHE_PREFIX (req.path.drop S.SPEEDTRACER_API_URL.length)
    let data := cache_get cache trace_id
    { recState := self_
    , request := req
    , response := some { body := ResponseBody.jsonDump data
                       , status := 200
                       , mimetype := "application/json; charset=UTF-8".toList
                       , headers := [] }
    , sysTrace := sysTrace }

/-- Result of `process_response`: the middleware state, the cache, the
response handed back to Django, and the `sys.settrace` state (always
uninstalled). -/
structure RespOutcome where
  recState : RecState
  cache : Cache
  response : HttpResponse
  sysTrace : Bool

/-- `SpeedTracerMiddleware.process_response` (lines 155-189): uninstall the
trace callback; if the request carries no start time return the response
unchanged; otherwise assemble the trace document, store it under
`CACHE_PREFIX % trace_id` with the configured TTL, and set the
`X-TraceUrl` header to `TRACE_URL + trace_id`.  The fresh `uuid.uuid4()`
string and the clock reading are inputs (`trace_id`, `now`). -/
def process_response (S : Settings) (self_ : RecState) (cache : Cache) (req : Request)
    (response : HttpResponse) (now : ℚ) (trace_id : Str) : RespOutcome :=
  match req.speedtracer_start_time with
  | none => { recState := self_, cache := cache, response := response, sysTrace := false }
  | some start_time =>
    let data := trace_document self_ req start_time now now trace_id
    { recState := self_
    , cache := cache_set cache (formatS S.SPEEDTRACER_CACHE_PREFIX trace_id) data
        S.SPEEDTRACER_TRACE_TTL
    , response := setHeader response ("X-TraceUrl".toList) (S.SPEEDTRACER_API_URL ++ trace_id)
    , sysTrace := false }

/-! Concrete data used by the claim witnesses. -/

/-- A filter matching every path. -/
def ffTrue : Str → Bool := fun _ => true

/-- A filter matching application paths only. -/
def ffApp : Str → Bool := fun p => ("/app/".toList).isPrefixOf p

def frA : FrameInfo :=
  ⟨"/app/views.py".toList, "page_handler".toList, 10, "views".toList, []⟩

def frB : FrameInfo :=
  ⟨"/app/models.py".toList, "load".toList, 20, "models".toList, "Page".toList⟩

def frLib : FrameInfo :=
  ⟨"/usr/lib/python/django/core.py".toList, "get_response".toList, 30, "django.core".toList, []⟩

def evA_call : TraceEvent := ⟨.call, frA, 1, 11⟩
def evA_ret : TraceEvent := ⟨.ret, frA, 4, 0⟩
def evB_call : TraceEvent := ⟨.call, frB, 2, 12⟩
def evB_ret : TraceEvent := ⟨.ret, frB, 3, 0⟩
def evLib_call : TraceEvent := ⟨.call, frLib, 1, 13⟩
def evLib_ret : TraceEvent := ⟨.ret, frLib, 4, 0⟩
def evRetEmpty : TraceEvent := ⟨.ret, frA, 5, 0⟩

/-- One call and its return. -/
def evsC1 : List TraceEvent := [evA_call, evA_ret]

/-- A call with one nested call. -/
def evsC2 : List TraceEvent := [evA_call, evB_call, evB_ret, evA_ret]

/-- A non-matching call enclosing a matching one. -/
def evsC3 : List TraceEvent := [evLib_call, evB_call, evB_ret, evLib_ret]

/-- The span recorded for `evsC1`. -/
def spC1 : Span := Span.mk 11 (mkOperation frA) [] (RangeInfo.built (build_range 1 4))

/-- Settings with the source defaults and an explicitly configured
match-everything file filter. -/
def settingsW : Settings :=
  { INSTALLED_APPS := []
  , SPEEDTRACER_CACHE_PREFIX := "speedtracer-%s".toList
  , SPEEDTRACER_DEBUG := false
  , SPEEDTRACER_TRACE_DJANGO := false
  , SPEEDTRACER_API_URL := "/__speedtracer__/".toList
  , SPEEDTRACER_FILE_FILTER_RE := some ffTrue
  , SPEEDTRACER_TRACE_TTL := 3600 }

/-- Settings selecting filter auto-derivation for an installed app `myapp`. -/
def settingsC7 : Settings :=
  { settingsW with SPEEDTRACER_FILE_FILTER_RE := none, INSTALLED_APPS := ["myapp".toList] }

/-- `sys.modules` holding a submodule of `myapp` but not `myapp` itself, so
`sys.modules['myapp']` raises `KeyError`: the app's source directory cannot
be determined. -/
def modulesC7 : Modules :=
  [("myapp.views".toList, ⟨some ["/src/myapp".toList]⟩)]

def reqPage : Request := ⟨"GET".toList, "/page".toList, some 0⟩
def reqPage2 : Request := ⟨"GET".toList, "/other".toList, none⟩
def reqMiss : Request := ⟨"GET".toList, "/__speedtracer__/nosuchtrace".toList, none⟩
def respHtml : HttpResponse := ⟨.content ("ok".toList), 200, "text/html".toList, []⟩

/-! Basic lemmas about spans and walks. -/

@[simp] theorem Span.id_mk (i o cs r) : (Span.mk i o cs r).id = i := rfl
@[simp] theorem Span.operation_mk (i o cs r) : (Span.mk i o cs r).operation = o := rfl
@[simp] theorem Span.children_mk (i o cs r) : (Span.mk i o cs r).children = cs := rfl
@[simp] theorem Span.range_mk (i o cs r) : (Span.mk i o cs r).range = r := rfl
@[simp] theorem Span.withRange_mk (i o cs r r') :
    (Span.mk i o cs r).withRange r' = Span.mk i o cs r' := rfl
@[simp] theorem Span.withChildren_mk (i o cs r cs') :
    (Span.mk i o cs r).withChildren cs' = Span.mk i o cs' r := rfl

@[simp] theorem Span.withChildren_children (sp : Span) :
    sp.withChildren sp.children = sp := by cases sp; rfl

@[simp] theorem Span.children_withChildren (sp : Span) (cs) :
    (sp.withChildren cs).children = cs := by cases sp; rfl

@[simp] theorem Span.withChildren_withChildren (sp : Span) (cs cs') :
    (sp.withChildren cs).withChildren cs' = sp.withChildren cs' := by cases sp; rfl

@[simp] theorem Span.children_withRange (sp : Span) (r) :
    (sp.withRange r).children = sp.children := by cases sp; rfl

@[simp] theorem Span.range_withRange (sp : Span) (r) :
    (sp.withRange r).range = r := by cases sp; rfl

@[simp] theorem Span.range_withChildren (sp : Span) (cs) :
    (sp.withChildren cs).range = sp.range := by cases sp; rfl

@[simp] theorem spanWalk_mk (i op cs r) :
    spanWalk (Span.mk i op cs r) = op :: forestWalk cs := by
  rw [spanWalk]

@[simp] theorem forestWalk_nil : forestWalk [] = [] := by rw [forestWalk]

@[simp] theorem forestWalk_cons (sp rest) :
    forestWalk (sp :: rest) = spanWalk sp ++ forestWalk rest := by
  rw [forestWalk]

theorem forestWalk_append (xs ys : List Span) :
    forestWalk (xs ++ ys) = forestWalk xs ++ forestWalk ys := by
  induction xs with
  | nil => simp
  | cons sp rest ih => simp [ih]

@[simp] theorem callOps_nil : callOps [] = [] := rfl

theorem callOps_cons_call (e : TraceEvent) (rest) (h : e.kind = .call) :
    callOps (e :: rest) = mkOperation e.frame :: callOps rest := by
  simp [callOps, List.filterMap_cons, h]

theorem callOps_cons_ret (e : TraceEvent) (rest) (h : e.kind = .ret) :
    callOps (e :: rest) = callOps rest := by
  simp [callOps, List.filterMap_cons, h]

theorem callOps_append (xs ys : List TraceEvent) :
    callOps (xs ++ ys) = callOps xs ++ callOps ys := by
  simp [callOps, List.filterMap_append]

/-! Single-step behaviour of the trace callback. -/

theorem trace_callback_call (file_filter : Str → Bool) (s : RecState) (e : TraceEvent)
    (hk : e.kind = .call) (hf : file_filter e.frame.co_filename = true) :
    trace_callback file_filter s e =
      .ok { traces := s.traces
          , call_stack :=
              Span.mk e.allocId (mkOperation e.frame) [] (RangeInfo.startOnly e.time)
                :: s.call_stack } := by
  simp [trace_callback, hk, hf]

theorem trace_callback_ret_root (file_filter : Str → Bool) (tr : List Span)
    (cur : Span) (t : ℚ) (e : TraceEvent)
    (hk : e.kind = .ret) (hf : file_filter e.frame.co_filename = true)
    (hrange : cur.range = RangeInfo.startOnly t) :
    trace_callback file_filter ⟨tr, [cur]⟩ e =
      .ok { traces := tr ++ [cur.withRange (RangeInfo.built (build_range t e.time))]
          , call_stack := [] } := by
  simp [trace_callback, hk, hf, hrange, rangeStartTime]

theorem trace_callback_ret_child (file_filter : Str → Bool) (tr : List Span)
    (cur parent : Span) (ps : List Span) (t : ℚ) (e : TraceEvent)
    (hk : e.kind = .ret) (hf : file_filter e.frame.co_filename = true)
    (hrange : cur.range = RangeInfo.startOnly t) :
    trace_callback file_filter ⟨tr, cur :: parent :: ps⟩ e =
      .ok { traces := tr
          , call_stack :=
              parent.withChildren
                  (parent.children ++ [cur.withRange (RangeInfo.built (build_range t e.time))])
                :: ps } := by
  simp [trace_callback, hk, hf, hrange, rangeStartTime]

@[simp] theorem runTraceEvents_nil (file_filter : Str → Bool) (s : RecState) :
    runTraceEvents file_filter s [] = .ok s := rfl

theorem runTraceEvents_cons (file_filter : Str → Bool) (s : RecState) (e : TraceEvent) (rest) :
    runTraceEvents file_filter s (e :: rest) =
      match trace_callback file_filter s e with
      | .ok s2 => runTraceEvents file_filter s2 rest
      | .error err => .error err := rfl

theorem runTraceEvents_append (file_filter : Str → Bool) (s : RecState) (xs ys : List TraceEvent) :
    runTraceEvents file_filter s (xs ++ ys) =
      match runTraceEvents file_filter s xs with
      | .ok s2 => runTraceEvents file_filter s2 ys
      | .error err => .error err := by
  induction xs generalizing s with
  | nil => simp
  | cons e rest ih =>
    rw [List.cons_append, runTraceEvents_cons, runTraceEvents_cons]
    cases trace_callback file_filter s e with
    | ok s2 => exact ih s2
    | error err => rfl

/-- Running a well-formed, fully matching event sequence from any state
appends one fixed forest `F` to the traces when the stack is empty, and to
the child list of the top of the stack otherwise. -/
theorem runTraceEvents_nested (file_filter : Str → Bool) {evs : List TraceEvent}
    (hN : Nested evs) :
    (∀ e ∈ evs, file_filter e.frame.co_filename = true) →
    ∃ F : List Span,
      (∀ tr, runTraceEvents file_filter ⟨tr, []⟩ evs = .ok ⟨tr ++ F, []⟩) ∧
      (∀ tr p ps, runTraceEvents file_filter ⟨tr, p :: ps⟩ evs =
        .ok ⟨tr, p.withChildren (p.children ++ F) :: ps⟩) := by
  induction hN with
  | nil =>
    intro _
    exact ⟨[], fun tr => by simp, fun tr p ps => by simp⟩
  | @node c r inner rest hc hr hNi hNr ihI ihR =>
    intro hM
    have hMc : file_filter c.frame.co_filename = true := hM c (by simp)
    have hMr : file_filter r.frame.co_filename = true := hM r (by simp)
    have hMi : ∀ e ∈ inner, file_filter e.frame.co_filename = true := by
      intro e he
      exact hM e (by simp [he])
    have hMrest : ∀ e ∈ rest, file_filter e.frame.co_filename = true := by
      intro e he
      exact hM e (by simp [he])
    obtain ⟨F1, hF1root, hF1child⟩ := ihI hMi
    obtain ⟨F2, hF2root, hF2child⟩ := ihR hMrest
    refine ⟨Span.mk c.allocId (mkOperation c.frame) F1
        (RangeInfo.built (build_range c.time r.time)) :: F2, ?_, ?_⟩
    · intro tr
      rw [runTraceEvents_cons, trace_callback_call file_filter ⟨tr, []⟩ c hc hMc]
      show runTraceEvents file_filter
        ⟨tr, [Span.mk c.allocId (mkOperation c.frame) [] (RangeInfo.startOnly c.time)]⟩
        (inner ++ r :: rest) = _
      rw [runTraceEvents_append, hF1child]
      show runTraceEvents file_filter
        ⟨tr, [Span.mk c.allocId (mkOperation c.frame) ([] ++ F1) (RangeInfo.startOnly c.time)]⟩
        (r :: rest) = _
      rw [List.nil_append, runTraceEvents_cons,
        trace_callback_ret_root file_filter tr _ c.time r hr hMr (by simp)]
      show runTraceEvents file_filter
        ⟨tr ++ [Span.mk c.allocId (mkOperation c.frame) F1
          (RangeInfo.built (build_range c.time r.time))], []⟩ rest = _
      rw [hF2root, List.append_assoc]
      rfl
    · intro tr p ps
      rw [runTraceEvents_cons, trace_callback_call file_filter ⟨tr, p :: ps⟩ c hc hMc]
      show runTraceEvents file_filter
        ⟨tr, Span.mk c.allocId (mkOperation c.frame) [] (RangeInfo.startOnly c.time) :: p :: ps⟩
        (inner ++ r :: rest) = _
      rw [runTraceEvents_append, hF1child]
      show runTraceEvents file_filter
        ⟨tr, Span.mk c.allocId (mkOperation c.frame) ([] ++ F1) (RangeInfo.startOnly c.time)
          :: p :: ps⟩ (r :: rest) = _
      rw [List.nil_append, runTraceEvents_cons,
        trace_callback_ret_child file_filter tr _ p ps c.time r hr hMr (by simp)]
      show runTraceEvents file_filter
        ⟨tr, p.withChildren (p.children ++ [Span.mk c.allocId (mkOperation c.frame) F1
          (RangeInfo.built (build_range c.time r.time))]) :: ps⟩ rest = _
      rw [hF2child]
      simp [List.append_assoc]

/-- Decomposition of the recorded forest at a node: the span opened by the
enter event `c` is closed by the matching exit event `r`, carries exactly
the forest recorded for the events inside its activation as its children,
and is followed by the forest of the remaining events. -/
theorem forestOf_node (file_filter : Str → Bool) (c r : TraceEvent)
    (inner rest : List TraceEvent)
    (hc : c.kind = .call) (hr : r.kind = .ret)
    (hMc : file_filter c.frame.co_filename = true)
    (hMr : file_filter r.frame.co_filename = true)
    (hNi : Nested inner) (hMi : ∀ e ∈ inner, file_filter e.frame.co_filename = true)
    (hNr : Nested rest) (hMrest : ∀ e ∈ rest, file_filter e.frame.co_filename = true) :
    forestOf file_filter (c :: (inner ++ r :: rest)) =
      Span.mk c.allocId (mkOperation c.frame) (forestOf file_filter inner)
          (RangeInfo.built (build_range c.time r.time))
        :: forestOf file_filter rest := by
  obtain ⟨F1, hF1root, hF1child⟩ := runTraceEvents_nested file_filter hNi hMi
  obtain ⟨F2, hF2root, hF2child⟩ := runTraceEvents_nested file_filter hNr hMrest
  have hinner : forestOf file_filter inner = F1 := by
    have := hF1root []
    simp only [forestOf, initRecState, this, List.nil_append]
  have hrest : forestOf file_filter rest = F2 := by
    have := hF2root []
    simp only [forestOf, initRecState, this, List.nil_append]
  have hrun : runTraceEvents file_filter initRecState (c :: (inner ++ r :: rest)) =
      .ok ⟨Span.mk c.allocId (mkOperation c.frame) F1
        (RangeInfo.built (build_range c.time r.time)) :: F2, []⟩ := by
    rw [show initRecState = (⟨[], []⟩ : RecState) from rfl]
    rw [runTraceEvents_cons, trace_callback_call file_filter ⟨[], []⟩ c hc hMc]
    show runTraceEvents file_filter
      ⟨[], [Span.mk c.allocId (mkOperation c.frame) [] (RangeInfo.startOnly c.time)]⟩
      (inner ++ r :: rest) = _
    rw [runTraceEvents_append, hF1child]
    show runTraceEvents file_filter
      ⟨[], [Span.mk c.allocId (mkOperation c.frame) ([] ++ F1) (RangeInfo.startOnly c.time)]⟩
      (r :: rest) = _
    rw [List.nil_append, runTraceEvents_cons,
      trace_callback_ret_root file_filter [] _ c.time r hr hMr (by simp)]
    show runTraceEvents file_filter
      ⟨[] ++ [Span.mk c.allocId (mkOperation c.frame) F1
        (RangeInfo.built (build_range c.time r.time))], []⟩ rest = _
    rw [List.nil_append]
    exact hF2root _
  rw [hinner, hrest]
  simp only [forestOf, hrun]

/-- The depth-first walk of the recorded forest lists exactly the operations
of the enter events, in input order. -/
theorem forestWalk_forestOf (file_filter : Str → Bool) {evs : List TraceEvent}
    (hN : Nested evs) :
    (∀ e ∈ evs, file_filter e.frame.co_filename = true) →
    forestWalk (forestOf file_filter evs) = callOps evs := by
  induction hN with
  | nil =>
    intro _
    rfl
  | @node c r inner rest hc hr hNi hNr ihI ihR =>
    intro hM
    have hMc : file_filter c.frame.co_filename = true := hM c (by simp)
    have hMr : file_filter r.frame.co_filename = true := hM r (by simp)
    have hMi : ∀ e ∈ inner, file_filter e.frame.co_filename = true := by
      intro e he
      exact hM e (by simp [he])
    have hMrest : ∀ e ∈ rest, file_filter e.frame.co_filename = true := by
      intro e he
      exact hM e (by simp [he])
    rw [forestOf_node file_filter c r inner rest hc hr hMc hMr hNi hMi hNr hMrest]
    rw [forestWalk_cons, spanWalk_mk, callOps_cons_call c _ hc, callOps_append,
      callOps_cons_ret r rest hr, ihI hMi, ihR hMrest]
    simp

/-- Claim C2: feeding any well-formed nested enter/exit sequence whose
frames all match the frame filter to the recorder succeeds and empties the
execution stack; the depth-first walk of the resulting root-span list
reproduces the operations of the enter events in their exact input order;
and at every activation (outermost, and recursively at any depth via
`forestOf` of the inner sequence) the span opened by an enter event has as
children exactly the spans of the calls made directly within its
activation, in call order. -/
theorem claim_C2 (file_filter : Str → Bool) :
    (∀ evs : List TraceEvent, Nested evs →
      (∀ e ∈ evs, file_filter e.frame.co_filename = true) →
      ∃ s2 : RecState,
        runTraceEvents file_filter initRecState evs = .ok s2 ∧
        s2.call_stack = [] ∧
        s2.traces = forestOf file_filter evs ∧
        forestWalk s2.traces = callOps evs) ∧
    (∀ (c r : TraceEvent) (inner rest : List TraceEvent),
      c.kind = .call → r.kind = .ret →
      file_filter c.frame.co_filename = true →
      file_filter r.frame.co_filename = true →
      Nested inner → (∀ e ∈ inner, file_filter e.frame.co_filename = true) →
      Nested rest → (∀ e ∈ rest, file_filter e.frame.co_filename = true) →
      forestOf file_filter (c :: (inner ++ r :: rest)) =
        Span.mk c.allocId (mkOperation c.frame) (forestOf file_filter inner)
            (RangeInfo.built (build_range c.time r.time))
          :: forestOf file_filter rest) := by
  constructor
  · intro evs hN hM
    obtain ⟨F, hFroot, _⟩ := runTraceEvents_nested file_filter hN hM
    have hforest : forestOf file_filter evs = F := by
      have := hFroot []
      simp only [forestOf, initRecState, this, List.nil_append]
    refine ⟨⟨F, []⟩, ?_, rfl, ?_, ?_⟩
    · have := hFroot []
      simpa [initRecState] using this
    · exact hforest.symm
    · have hwalk := forestWalk_forestOf file_filter hN hM
      rw [hforest] at hwalk
      exact hwalk
  · intro c r inner rest hc hr hMc hMr hNi hMi hNr hMrest
    exact forestOf_node file_filter c r inner rest hc hr hMc hMr hNi hMi hNr hMrest

theorem nested_evsC2 : Nested evsC2 :=
  show Nested (evA_call :: (([evB_call, evB_ret] : List TraceEvent) ++ evA_ret :: [])) from
    Nested.node rfl rfl
      (show Nested (evB_call :: (([] : List TraceEvent) ++ evB_ret :: [])) from
        Nested.node rfl rfl Nested.nil Nested.nil)
      Nested.nil

/-- Witness for claim C2 at a concrete two-level call sequence. -/
theorem claim_C2_witness :
    Nested evsC2 ∧
    (∀ e ∈ evsC2, ffTrue e.frame.co_filename = true) ∧
    (∃ s2 : RecState,
      runTraceEvents ffTrue initRecState evsC2 = .ok s2 ∧
      s2.call_stack = [] ∧
      s2.traces = forestOf ffTrue evsC2 ∧
      forestWalk s2.traces = callOps evsC2) :=
  ⟨nested_evsC2, fun _e _ => rfl,
    (claim_C2 ffTrue).1 evsC2 nested_evsC2 (fun _e _ => rfl)⟩

/-! Transparency of unmatched frames and unhandled events. -/

theorem trace_callback_not_handled (file_filter : Str → Bool) (s : RecState) (e : TraceEvent)
    (h : e.kind = .other) : trace_callback file_filter s e = .ok s := by
  simp [trace_callback, h]

theorem trace_callback_no_match (file_filter : Str → Bool) (s : RecState) (e : TraceEvent)
    (h : file_filter e.frame.co_filename = false) :
    trace_callback file_filter s e = .ok s := by
  cases hk : e.kind with
  | other => simp [trace_callback, hk]
  | call => simp [trace_callback, hk, h]
  | ret => simp [trace_callback, hk, h]

theorem trace_callback_irrelevant (file_filter : Str → Bool) (s : RecState) (e : TraceEvent)
    (h : relevantEvent file_filter e = false) :
    trace_callback file_filter s e = .ok s := by
  cases hk : e.kind with
  | other => exact trace_callback_not_handled file_filter s e hk
  | call =>
    have hf : file_filter e.frame.co_filename = false := by
      simpa [relevantEvent, handledKind, hk] using h
    exact trace_callback_no_match file_filter s e hf
  | ret =>
    have hf : file_filter e.frame.co_filename = false := by
      simpa [relevantEvent, handledKind, hk] using h
    exact trace_callback_no_match file_filter s e hf

theorem runTraceEvents_filter (file_filter : Str → Bool) (s : RecState) (evs : List TraceEvent) :
    runTraceEvents file_filter s evs =
      runTraceEvents file_filter s (evs.filter (fun e => relevantEvent file_filter e)) := by
  induction evs generalizing s with
  | nil => rfl
  | cons e rest ih =>
    by_cases hrel : relevantEvent file_filter e = true
    · rw [List.filter_cons_of_pos hrel, runTraceEvents_cons, runTraceEvents_cons]
      cases trace_callback file_filter s e with
      | ok s2 => exact ih s2
      | error err => rfl
    · have hrel' : relevantEvent file_filter e = false := by simpa using hrel
      rw [List.filter_cons_of_neg (by simp [hrel']), runTraceEvents_cons,
        trace_callback_irrelevant file_filter s e hrel']
      exact ih s

theorem forestOf_filter (file_filter : Str → Bool) (evs : List TraceEvent) :
    forestOf file_filter evs =
      forestOf file_filter (evs.filter (fun e => relevantEvent file_filter e)) := by
  simp only [forestOf]
  rw [← runTraceEvents_filter]

/-- Claim C3: an enter event whose source path does not match the frame
filter creates no span — `trace_callback` returns the state unchanged — and
a recorder run on any event sequence coincides, both in final state and in
recorded root-span list, with the run on the subsequence of handled,
filter-matching events.  Unmatched frames are therefore transparent and do
not break the stack: matching nested calls are recorded exactly where they
would sit had the unmatched frames not existed, i.e. as children of the
nearest enclosing matching span, or in the root-span list when there is
none. -/
theorem claim_C3 (file_filter : Str → Bool) :
    (∀ (s : RecState) (e : TraceEvent), e.kind = .call →
      file_filter e.frame.co_filename = false →
      trace_callback file_filter s e = .ok s) ∧
    (∀ (s : RecState) (evs : List TraceEvent),
      runTraceEvents file_filter s evs =
        runTraceEvents file_filter s (evs.filter (fun e => relevantEvent file_filter e))) ∧
    (∀ evs : List TraceEvent,
      forestOf file_filter evs =
        forestOf file_filter (evs.filter (fun e => relevantEvent file_filter e))) := by
  refine ⟨?_, ?_, ?_⟩
  · intro s e _hk hf
    exact trace_callback_no_match file_filter s e hf
  · intro s evs
    exact runTraceEvents_filter file_filter s evs
  · intro evs
    exact forestOf_filter file_filter evs

/-- Witness for claim C3: a non-matching outer call around a matching inner
call; the inner span is recorded and, having no enclosing matching span,
lands in the root-span list. -/
theorem claim_C3_witness :
    ffApp evLib_call.frame.co_filename = false ∧
    trace_callback ffApp initRecState evLib_call = .ok initRecState ∧
    runTraceEvents ffApp initRecState evsC3 =
      runTraceEvents ffApp initRecState (evsC3.filter (fun e => relevantEvent ffApp e)) ∧
    forestOf ffApp evsC3 =
      [Span.mk 12 (mkOperation frB) [] (RangeInfo.built (build_range 2 3))] :=
  ⟨rfl, (claim_C3 ffApp).1 initRecState evLib_call rfl rfl,
    (claim_C3 ffApp).2.1 initRecState evsC3, rfl⟩

/-! Well-formedness of closed ranges under a monotone clock. -/

@[simp] theorem spanOkB_mk (i o cs r) :
    spanOkB (Span.mk i o cs r) = (rangeInfoOkB r && spansOkB cs) := by
  rw [spanOkB]

@[simp] theorem spansOkB_nil : spansOkB [] = true := by rw [spansOkB]

@[simp] theorem spansOkB_cons (sp rest) :
    spansOkB (sp :: rest) = (spanOkB sp && spansOkB rest) := by
  rw [spansOkB]

theorem spansOkB_append (xs ys : List Span) :
    spansOkB (xs ++ ys) = (spansOkB xs && spansOkB ys) := by
  induction xs with
  | nil => simp
  | cons sp rest ih => simp [ih, Bool.and_assoc]

theorem spanOkB_withRange (sp : Span) (r : RangeInfo) :
    spanOkB (sp.withRange r) = (rangeInfoOkB r && spansOkB sp.children) := by
  cases sp
  simp

theorem Inv.mono {b b2 : ℚ} {s : RecState} (hb : b ≤ b2) (h : Inv b s) : Inv b2 s := by
  obtain ⟨htr, hstack⟩ := h
  refine ⟨htr, fun sp hsp => ?_⟩
  obtain ⟨⟨t, hr, hle⟩, hch⟩ := hstack sp hsp
  exact ⟨⟨t, hr, hle.trans hb⟩, hch⟩

/-- The span closed by a `'return'` event at time `e.time` is well-formed,
given that it was opened at a time `t ≤ e.time` with well-formed children. -/
theorem spanOkB_closed (cur : Span) (t u : ℚ) (hle : t ≤ u)
    (hch : spansOkB cur.children = true) :
    spanOkB (cur.withRange (RangeInfo.built (build_range t u))) = true := by
  rw [spanOkB_withRange, hch, Bool.and_true]
  simp [rangeInfoOkB, builtRangeOkB, build_range, decide_eq_true_eq]
  exact hle

theorem trace_callback_inv (file_filter : Str → Bool) (s : RecState) (e : TraceEvent)
    (s1 : RecState) (b : ℚ) (hb : b ≤ e.time) (hI : Inv b s)
    (hstep : trace_callback file_filter s e = .ok s1) : Inv e.time s1 := by
  obtain ⟨tr, stack⟩ := s
  cases hk : e.kind with
  | other =>
    rw [trace_callback_not_handled file_filter _ e hk] at hstep
    injection hstep with h
    subst h
    exact Inv.mono hb hI
  | call =>
    by_cases hf : file_filter e.frame.co_filename = true
    · rw [trace_callback_call file_filter _ e hk hf] at hstep
      injection hstep with h
      subst h
      refine ⟨(Inv.mono hb hI).1, fun sp hsp => ?_⟩
      rcases List.mem_cons.mp hsp with rfl | hsp'
      · exact ⟨⟨e.time, rfl, le_refl _⟩, by simp⟩
      · exact (Inv.mono hb hI).2 sp hsp'
    · have hf' : file_filter e.frame.co_filename = false := by simpa using hf
      rw [trace_callback_no_match file_filter _ e hf'] at hstep
      injection hstep with h
      subst h
      exact Inv.mono hb hI
  | ret =>
    by_cases hf : file_filter e.frame.co_filename = true
    · cases stack with
      | nil => simp [trace_callback, hk, hf] at hstep
      | cons cur rest =>
        obtain ⟨⟨t, hrange, hle⟩, hch⟩ := hI.2 cur (List.mem_cons_self _ _)
        cases rest with
        | nil =>
          rw [trace_callback_ret_root file_filter tr cur t e hk hf hrange] at hstep
          injection hstep with h
          subst h
          have htr : spansOkB tr = true := hI.1
          constructor
          · show spansOkB (tr ++ [cur.withRange (RangeInfo.built (build_range t e.time))]) = true
            rw [spansOkB_append, htr, Bool.true_and, spansOkB_cons, spansOkB_nil, Bool.and_true]
            exact spanOkB_closed cur t e.time (hle.trans hb) hch
          · intro sp hsp
            exact absurd hsp (by simp)
        | cons parent ps =>
          obtain ⟨⟨tp, hrangep, hlep⟩, hchp⟩ :=
            hI.2 parent (by simp)
          rw [trace_callback_ret_child file_filter tr cur parent ps t e hk hf hrange] at hstep
          injection hstep with h
          subst h
          refine ⟨hI.1, fun sp hsp => ?_⟩
          rcases List.mem_cons.mp hsp with rfl | hsp'
          · refine ⟨⟨tp, ?_, hlep.trans hb⟩, ?_⟩
            · rw [Span.range_withChildren]
              exact hrangep
            · rw [Span.children_withChildren, spansOkB_append, hchp, Bool.true_and,
                spansOkB_cons, spansOkB_nil, Bool.and_true]
              exact spanOkB_closed cur t e.time (hle.trans hb) hch
          · exact (Inv.mono hb hI).2 sp (by simp [hsp'])
    · have hf' : file_filter e.frame.co_filename = false := by simpa using hf
      rw [trace_callback_no_match file_filter _ e hf'] at hstep
      injection hstep with h
      subst h
      exact Inv.mono hb hI

theorem runTraceEvents_inv (file_filter : Str → Bool) :
    ∀ (evs : List TraceEvent) (s : RecState) (b : ℚ) (s2 : RecState),
      Inv b s → List.Pairwise (· ≤ ·) (b :: evs.map (fun e => e.time)) →
      runTraceEvents file_filter s evs = .ok s2 → ∃ b2, Inv b2 s2 := by
  intro evs
  induction evs with
  | nil =>
    intro s b s2 hI _ hrun
    rw [runTraceEvents_nil] at hrun
    injection hrun with h
    subst h
    exact ⟨b, hI⟩
  | cons e rest ih =>
    intro s b s2 hI hP hrun
    rw [List.map_cons, List.pairwise_cons] at hP
    obtain ⟨hall, hP2⟩ := hP
    have hble : b ≤ e.time := hall e.time (by simp)
    rw [runTraceEvents_cons] at hrun
    cases hstep : trace_callback file_filter s e with
    | error err => simp [hstep] at hrun
    | ok s1 =>
      rw [hstep] at hrun
      exact ih s1 e.time s2 (trace_callback_inv file_filter s e s1 b hble hI hstep) hP2 hrun

/-- Claim C5: under a monotone clock (each timestamp read is at least every
earlier one), every span closed by a successful recorder run — whether in
the root-span list or among the recorded children of a still-open span —
has a range with end no earlier than start and duration exactly
end minus start. -/
theorem claim_C5 (file_filter : Str → Bool) (evs : List TraceEvent) (s2 : RecState)
    (hmono : List.Pairwise (· ≤ ·) (evs.map (fun e => e.time)))
    (hrun : runTraceEvents file_filter initRecState evs = .ok s2) :
    spansOkB s2.traces = true ∧ ∀ sp ∈ s2.call_stack, spansOkB sp.children = true := by
  have hInit : ∀ b : ℚ, Inv b initRecState := by
    intro b
    exact ⟨rfl, fun sp hsp => absurd hsp (by simp [initRecState])⟩
  have hres : ∃ b2, Inv b2 s2 := by
    cases evs with
    | nil => exact runTraceEvents_inv file_filter [] initRecState 0 s2 (hInit 0) (by simp) hrun
    | cons e rest =>
      rw [List.map_cons, List.pairwise_cons] at hmono
      obtain ⟨hall, hP2⟩ := hmono
      refine runTraceEvents_inv file_filter (e :: rest) initRecState e.time s2 (hInit e.time)
        ?_ hrun
      rw [List.map_cons, List.pairwise_cons]
      refine ⟨?_, ?_⟩
      · intro a ha
        rcases List.mem_cons.mp ha with rfl | ha'
        · exact le_refl _
        · exact hall a ha'
      · rw [List.pairwise_cons]
        exact ⟨hall, hP2⟩
  obtain ⟨b2, hI2⟩ := hres
  exact ⟨hI2.1, fun sp hsp => (hI2.2 sp hsp).2⟩

/-- Witness for claim C5 at a concrete call/return pair with increasing
clock readings. -/
theorem claim_C5_witness :
    List.Pairwise (· ≤ ·) (evsC1.map (fun e => e.time)) ∧
    (spansOkB (⟨[spC1], []⟩ : RecState).traces = true ∧
      ∀ sp ∈ (⟨[spC1], []⟩ : RecState).call_stack, spansOkB sp.children = true) := by
  have hmono : List.Pairwise (· ≤ ·) (evsC1.map (fun e => e.time)) := by
    norm_num [evsC1, evA_call, evA_ret, List.pairwise_cons]
  exact ⟨hmono, claim_C5 ffTrue evsC1 ⟨[spC1], []⟩ hmono rfl⟩

/-- Claim C4 (code bug): on a `'return'` event with an empty execution
stack the source reaches `print >>sys.stderr, "Return without stack?"`,
which under the module's `print_function` future import raises `TypeError`
instead of emitting a diagnostic and continuing: the event is not ignored
non-fatally, the exception propagates out of the trace callback. -/
theorem claim_C4 :
    trace_callback ffTrue initRecState evRetEmpty = .error PyError.typeErrorPrintRshift := rfl

/-- Claim C7 (code bug): with filter auto-derivation selected and an
installed app whose source directory cannot be determined
(`sys.modules['myapp']` raises `KeyError` while `myapp.views` is loaded),
filter construction does not skip the app with a diagnostic and complete:
the diagnostic `print >>sys.stderr, ...` in the `except KeyError` handler
raises `TypeError` out of `__init__`. -/
theorem claim_C7 :
    initFileFilter settingsC7 modulesC7 = .error PyError.typeErrorPrintRshift := rfl

/-! Association-list lemmas for headers and the cache. -/

theorem lookupAssoc_setAssoc_self {α β : Type} [DecidableEq α] (l : List (α × β)) (key : α)
    (v : β) : lookupAssoc (setAssoc l key v) key = some v := by
  induction l with
  | nil => simp [setAssoc, lookupAssoc]
  | cons p t ih =>
    obtain ⟨k', v'⟩ := p
    by_cases hk : k' = key
    · simp [setAssoc, hk, lookupAssoc]
    · simp [setAssoc, hk, lookupAssoc, ih]

theorem lookupAssoc_setAssoc_ne {α β : Type} [DecidableEq α] (l : List (α × β)) (key k : α)
    (v : β) (h : k ≠ key) : lookupAssoc (setAssoc l key v) k = lookupAssoc l k := by
  induction l with
  | nil => simp [setAssoc, lookupAssoc, Ne.symm h]
  | cons p t ih =>
    obtain ⟨k', v'⟩ := p
    by_cases hk : k' = key
    · subst hk
      simp [setAssoc, lookupAssoc, Ne.symm h]
    · by_cases hk2 : k' = k
      · simp [setAssoc, lookupAssoc, hk, hk2, h]
      · simp [setAssoc, lookupAssoc, hk, hk2, ih]

theorem isPrefixOf_self_append {α : Type} [BEq α] [LawfulBEq α] (l t : List α) :
    l.isPrefixOf (l ++ t) = true := by
  induction l with
  | nil => simp
  | cons a l ih => simp [List.isPrefixOf, ih]

/-- Claim C6: a retrieval request (path under the trace-URL prefix) whose
derived cache key has no entry — never written, or already expired — is
answered with the serialized `{}` placeholder as JSON with status 200, the
success status, never an error status. -/
theorem claim_C6 (S : Settings) (self_ : RecState) (sysTrace : Bool) (cache : Cache)
    (req : Request) (now : ℚ)
    (hpath : S.SPEEDTRACER_API_URL.isPrefixOf req.path = true)
    (hmiss : cache_get cache
      (formatS S.SPEEDTRACER_CACHE_PREFIX (req.path.drop S.SPEEDTRACER_API_URL.length)) = none) :
    (process_request S self_ sysTrace cache req now).response =
      some { body := ResponseBody.jsonDump none
           , status := 200
           , mimetype := "application/json; charset=UTF-8".toList
           , headers := [] } := by
  simp [process_request, hpath, hmiss]

/-- Witness for claim C6 at a concrete unknown-key retrieval request. -/
theorem claim_C6_witness :
    settingsW.SPEEDTRACER_API_URL.isPrefixOf reqMiss.path = true ∧
    cache_get ([] : Cache) (formatS settingsW.SPEEDTRACER_CACHE_PREFIX
      (reqMiss.path.drop settingsW.SPEEDTRACER_API_URL.length)) = none ∧
    (process_request settingsW initRecState false [] reqMiss 7).response =
      some { body := ResponseBody.jsonDump none
           , status := 200
           , mimetype := "application/json; charset=UTF-8".toList
           , headers := [] } :=
  ⟨rfl, rfl, claim_C6 settingsW initRecState false [] reqMiss 7 rfl rfl⟩

/-- Claim C8: for a request with no recorded start timestamp,
`process_response` passes the response through unmodified — the same
response value, nothing stored in the cache, no document assembled, no
header added (only `sys.settrace(None)` has run). -/
theorem claim_C8 (S : Settings) (self_ : RecState) (cache : Cache) (req : Request)
    (response : HttpResponse) (now : ℚ) (trace_id : Str)
    (hstart : req.speedtracer_start_time = none) :
    process_response S self_ cache req response now trace_id =
      { recState := self_, cache := cache, response := response, sysTrace := false } := by
  simp [process_response, hstart]

/-- Witness for claim C8 at a concrete request without a start timestamp. -/
theorem claim_C8_witness :
    reqMiss.speedtracer_start_time = none ∧
    process_response settingsW initRecState [] reqMiss respHtml 8 ("id1".toList) =
      { recState := initRecState, cache := [], response := respHtml, sysTrace := false } :=
  ⟨rfl, claim_C8 settingsW initRecState [] reqMiss respHtml 8 ("id1".toList) rfl⟩

/-- Claim C10: for a traced request (one carrying a start timestamp),
`process_response` changes only the `X-TraceUrl` header of the response it
was given: status, body and mimetype are unchanged, the header dict is the
original one updated at `X-TraceUrl`, and every other header reads as
before. -/
theorem claim_C10 (S : Settings) (self_ : RecState) (cache : Cache) (req : Request)
    (response : HttpResponse) (now : ℚ) (trace_id : Str) (t0 : ℚ)
    (hstart : req.speedtracer_start_time = some t0) :
    (process_response S self_ cache req response now trace_id).response.status =
        response.status ∧
    (process_response S self_ cache req response now trace_id).response.body =
        response.body ∧
    (process_response S self_ cache req response now trace_id).response.mimetype =
        response.mimetype ∧
    (process_response S self_ cache req response now trace_id).response.headers =
        setAssoc response.headers ("X-TraceUrl".toList) (S.SPEEDTRACER_API_URL ++ trace_id) ∧
    ∀ k : Str, k ≠ "X-TraceUrl".toList →
      lookupAssoc (process_response S self_ cache req response now trace_id).response.headers k =
        lookupAssoc response.headers k := by
  refine ⟨?_, ?_, ?_, ?_, ?_⟩
  · simp [process_response, hstart, setHeader]
  · simp [process_response, hstart, setHeader]
  · simp [process_response, hstart, setHeader]
  · simp [process_response, hstart, setHeader]
  · intro k hk
    simp only [process_response, hstart, setHeader]
    exact lookupAssoc_setAssoc_ne response.headers ("X-TraceUrl".toList) k _ hk

/-- Witness for claim C10 at a concrete traced request. -/
theorem claim_C10_witness :
    reqPage.speedtracer_start_time = some 0 ∧
    ((process_response settingsW ⟨[spC1], []⟩ [] reqPage respHtml 9 ("id2".toList)).response.status =
        respHtml.status ∧
     (process_response settingsW ⟨[spC1], []⟩ [] reqPage respHtml 9 ("id2".toList)).response.body =
        respHtml.body ∧
     (process_response settingsW ⟨[spC1], []⟩ [] reqPage respHtml 9
        ("id2".toList)).response.mimetype = respHtml.mimetype ∧
     (process_response settingsW ⟨[spC1], []⟩ [] reqPage respHtml 9
        ("id2".toList)).response.headers =
        setAssoc respHtml.headers ("X-TraceUrl".toList)
          (settingsW.SPEEDTRACER_API_URL ++ "id2".toList) ∧
     ∀ k : Str, k ≠ "X-TraceUrl".toList →
       lookupAssoc (process_response settingsW ⟨[spC1], []⟩ [] reqPage respHtml 9
          ("id2".toList)).response.headers k = lookupAssoc respHtml.headers k) :=
  ⟨rfl, claim_C10 settingsW ⟨[spC1], []⟩ [] reqPage respHtml 9 ("id2".toList) 0 rfl⟩

/-- Claim C9: for a traced request, `process_response` stores the assembled
document under the key derived from the generated trace id and sets the
`X-TraceUrl` header to the trace-URL prefix followed by that id; any later
retrieval request for that path, as long as the key still resolves to the
stored document (i.e. before TTL expiry), is answered with exactly that
document, unmodified, as JSON with status 200. -/
theorem claim_C9 (S : Settings) (self_ : RecState) (cache : Cache) (req : Request)
    (response : HttpResponse) (now : ℚ) (trace_id : Str) (t0 : ℚ)
    (hstart : req.speedtracer_start_time = some t0) :
    cache_get (process_response S self_ cache req response now trace_id).cache
        (formatS S.SPEEDTRACER_CACHE_PREFIX trace_id) =
      some (trace_document self_ req t0 now now trace_id) ∧
    lookupAssoc (process_response S self_ cache req response now trace_id).response.headers
        ("X-TraceUrl".toList) =
      some (S.SPEEDTRACER_API_URL ++ trace_id) ∧
    ∀ (cache2 : Cache) (self2 : RecState) (sysTrace2 : Bool) (now2 : ℚ) (req2 : Request),
      req2.path = S.SPEEDTRACER_API_URL ++ trace_id →
      cache_get cache2 (formatS S.SPEEDTRACER_CACHE_PREFIX trace_id) =
        some (trace_document self_ req t0 now now trace_id) →
      (process_request S self2 sysTrace2 cache2 req2 now2).response =
        some { body := ResponseBody.jsonDump (some (trace_document self_ req t0 now now trace_id))
             , status := 200
             , mimetype := "application/json; charset=UTF-8".toList
             , headers := [] } := by
  refine ⟨?_, ?_, ?_⟩
  · simp only [process_response, hstart, cache_get, cache_set]
    exact lookupAssoc_setAssoc_self cache _ _
  · simp only [process_response, hstart, setHeader]
    exact lookupAssoc_setAssoc_self response.headers _ _
  · intro cache2 self2 sysTrace2 now2 req2 hpath2 hc2
    have hpre : S.SPEEDTRACER_API_URL.isPrefixOf req2.path = true := by
      rw [hpath2]
      exact isPrefixOf_self_append _ _
    have hdrop : req2.path.drop S.SPEEDTRACER_API_URL.length = trace_id := by
      rw [hpath2]
      exact List.drop_left _ _
    simp [process_request, hpre, hdrop, hc2]

/-- Witness for claim C9 at a concrete traced request and its retrieval. -/
theorem claim_C9_witness :
    reqPage.speedtracer_start_time = some 0 ∧
    (cache_get (process_response settingsW ⟨[spC1], []⟩ [] reqPage respHtml 9
        ("id3".toList)).cache (formatS settingsW.SPEEDTRACER_CACHE_PREFIX ("id3".toList)) =
      some (trace_document ⟨[spC1], []⟩ reqPage 0 9 9 ("id3".toList)) ∧
     lookupAssoc (process_response settingsW ⟨[spC1], []⟩ [] reqPage respHtml 9
        ("id3".toList)).response.headers ("X-TraceUrl".toList) =
      some (settingsW.SPEEDTRACER_API_URL ++ "id3".toList) ∧
     ∀ (cache2 : Cache) (self2 : RecState) (sysTrace2 : Bool) (now2 : ℚ) (req2 : Request),
       req2.path = settingsW.SPEEDTRACER_API_URL ++ "id3".toList →
       cache_get cache2 (formatS settingsW.SPEEDTRACER_CACHE_PREFIX ("id3".toList)) =
         some (trace_document ⟨[spC1], []⟩ reqPage 0 9 9 ("id3".toList)) →
       (process_request settingsW self2 sysTrace2 cache2 req2 now2).response =
         some { body := ResponseBody.jsonDump
                  (some (trace_document ⟨[spC1], []⟩ reqPage 0 9 9 ("id3".toList)))
              , status := 200
              , mimetype := "application/json; charset=UTF-8".toList
              , headers := [] }) :=
  ⟨rfl, claim_C9 settingsW ⟨[spC1], []⟩ [] reqPage respHtml 9 ("id3".toList) 0 rfl⟩

/-- Claim C1 (code bug): stopping tracing for one request
(`process_response`) followed by starting it for the next
(`process_request`) does not reset the recorder state: `self.traces` and
`self.call_stack` are initialised only in `__init__`, once per middleware
instance, and neither hook clears them, so the span recorded during
request 1 is still in the root-span list when request 2 starts tracing. -/
theorem claim_C1 :
    runTraceEvents ffTrue initRecState evsC1 = .ok ⟨[spC1], []⟩ ∧
    (process_request settingsW
        (process_response settingsW ⟨[spC1], []⟩ [] reqPage respHtml 5 ("id0".toList)).recState
        false [] reqPage2 6).recState.traces = [spC1] :=
  ⟨rfl, rfl⟩

end SpeedTracer
